import Mathlib

/-!
Shallow embedding of the `go_api_template` repository: the workout/user data
model, the password record (`internal/store/workout_store.go`), the identity
middleware (`internal/middleware/middleware.go`), the Postgres-backed store
operations, and the HTTP handlers (workout handler, token handler), together
with theorems settling the frozen claims about them.

Go machine integers in this code are only ever compared or incremented far
from any overflow boundary, so they are embedded as `Int`; byte strings as
`String`; `nil`-able results as `Option`; `(value, error)` pairs as
`Except Unit` or explicit products; SQL tables as lists of row structures.
-/

namespace GoApi

/-! ## Data model (`internal/store/workout_store.go`) -/

/-- Go `store.WorkoutEntry`: one exercise entry of a workout.
`Reps`, `DurationSeconds`, `Weight` are pointer-typed (`*int`, `*float64`) in
Go, i.e. optional; the weight magnitude is never computed with, so it is
embedded as `Option Rat`. -/
structure WorkoutEntry where
  id : Int
  exerciseName : String
  sets : Int
  reps : Option Int
  durationSeconds : Option Int
  weight : Option Rat
  notes : String
  orderIndex : Int
deriving DecidableEq, Repr

/-- Go `store.Workout`: a workout row together with its entry list. -/
structure Workout where
  id : Int
  userId : Int
  title : String
  description : String
  durationMinutes : Int
  caloriesBurned : Int
  entries : List WorkoutEntry
deriving DecidableEq, Repr

/-- A row of the `workouts` table (columns of the INSERT/SELECT in
`CreateWorkout` / `GetWorkoutByID`). -/
structure WorkoutRow where
  id : Int
  userId : Int
  title : String
  description : String
  durationMinutes : Int
  caloriesBurned : Int
deriving DecidableEq, Repr

/-- A row of the `workout_entries` table (columns of the entry INSERT in
`CreateWorkout`, including the `user_id` column it writes). -/
structure EntryRow where
  id : Int
  userId : Int
  workoutId : Int
  exerciseName : String
  sets : Int
  reps : Option Int
  durationSeconds : Option Int
  weight : Option Rat
  notes : String
  orderIndex : Int
deriving DecidableEq, Repr

/-- The workout-side database state: the two tables plus the serial-id
counters Postgres uses to produce the `RETURNING id` values. -/
structure WorkoutDB where
  workouts : List WorkoutRow
  entries : List EntryRow
  nextWorkoutId : Int
  nextEntryId : Int
deriving DecidableEq, Repr

/-! ## bcrypt model and the `password` record -/

/-- Errors `bcrypt.CompareHashAndPassword` can return: the mismatch sentinel
`bcrypt.ErrMismatchedHashAndPassword`, or a malformed-hash error such as
`bcrypt.ErrHashTooShort` (returned e.g. for an empty / nil stored hash). -/
inductive BcryptError
  | mismatchedHashAndPassword
  | hashTooShort
deriving DecidableEq, Repr

/-- A stored bcrypt hash, modelling the `[]byte` hash field: either a
well-formed bcrypt hash derived from some plaintext at some cost, or a
malformed byte string (in particular the zero value `nil`). -/
inductive BcryptHash
  | hashOf (plaintext : String) (cost : Int)
  | malformed
deriving DecidableEq, Repr

/-- Model of `bcrypt.CompareHashAndPassword hash candidate`: `none` (nil
error) iff the stored hash is well-formed and derives from the candidate;
the mismatch sentinel for a well-formed hash of a different plaintext; a
malformed-hash error otherwise. -/
def bcryptCompareHashAndPassword : BcryptHash → String → Option BcryptError
  | .hashOf p _, candidate =>
      if candidate = p then none else some .mismatchedHashAndPassword
  | .malformed, _ => some .hashTooShort

/-- Go `store.password`: the Go struct has fields `plainText *string` and
`hash []byte`. -/
structure Password where
  plainText : Option String
  hash : BcryptHash
deriving DecidableEq, Repr

/-- Go `password.Set`: `bcrypt.GenerateFromPassword([]byte(plainText), 12)`,
then `p.plainText = &plainText; p.hash = hash`. `GenerateFromPassword`
only fails on an out-of-range cost, and 12 is in range, so the error
branch is dead and `Set` is embedded as total. -/
def Password.Set (_p : Password) (plainText : String) : Password :=
  { plainText := some plainText, hash := .hashOf plainText 12 }

/-- Go `password.Matches`, statement for statement: run the compare; if the
error is non-nil and equal to the mismatch sentinel, return `(false, nil)`
via the `errors.Is` switch (whose `default` arm is unreachable); any other
control path falls through to the final `return true, nil`. -/
def Password.Matches (p : Password) (plainText : String) :
    Bool × Option BcryptError :=
  match bcryptCompareHashAndPassword p.hash plainText with
  | some e =>
      if e = .mismatchedHashAndPassword then
        if e = .mismatchedHashAndPassword then (false, none)
        else (false, some e)
      else (true, none)
  | none => (true, none)

/-! ## User rows and the user store (`internal/store/workout_store.go`) -/

/-- Go `store.User` as read back from the `users` table: the scanned password
record holds only the hash column (`&user.PasswordHash.hash`), and
timestamps are embedded as integers. -/
structure UserRow where
  id : Int
  username : String
  email : String
  passwordHash : BcryptHash
  bio : String
  createdAt : Int
  updatedAt : Int
deriving DecidableEq, Repr

/-- A row of the `tokens` table: the SHA-256 digest (embedded as `Nat`),
owning user id, scope tag, absolute expiry instant. -/
structure TokenRow where
  hash : Nat
  userId : Int
  scope : String
  expiry : Int
deriving DecidableEq, Repr

/-- The user-side database state. -/
structure UserDB where
  users : List UserRow
  tokens : List TokenRow
deriving DecidableEq, Repr

/-- Go `PostgresUserStore.GetUserByUsername`: `SELECT ... WHERE username = $1`
via `QueryRow`; `sql.ErrNoRows` is translated to `(nil, nil)`, i.e. `none`.
Infrastructure failures aside, the result is the first matching row. -/
def GetUserByUsername (db : UserDB) (username : String) : Option UserRow :=
  db.users.find? (fun u => u.username = username)

/-- Go `PostgresUserStore.GetUserToken`: digest the presented plaintext with
SHA-256 (the digest function is a parameter of the embedding, used
opaquely exactly as the code uses `sha256.Sum256`), then
`SELECT u.* FROM users u INNER JOIN tokens t ON t.user_id = u.id
WHERE t.hash = $1 AND t.scope = $2 AND t.expiry > $3` with `$3 = now`;
`QueryRow` yields the first row of the join, `sql.ErrNoRows` becomes
`(nil, nil)`. -/
def GetUserToken (sha256 : String → Nat) (db : UserDB) (now : Int)
    (scope tokenPlaintext : String) : Option UserRow :=
  let tokenHash := sha256 tokenPlaintext
  (db.tokens.filterMap (fun t =>
    if t.hash = tokenHash ∧ t.scope = scope ∧ now < t.expiry then
      db.users.find? (fun u => u.id = t.userId)
    else none)).head?

/-! ## Identity middleware (`internal/middleware/middleware.go`) -/

/-- The identity a request carries after `SetUser`: the distinguished
`store.AnonymousUser` sentinel or an authenticated user. -/
inductive Identity
  | anonymous
  | authenticated (userId : Int)
deriving DecidableEq, Repr

/-- Observable outcome of one pass through `UserMiddleware.Middleware`'s
handler: `next ident` means `SetUser` attached `ident` and
`next.ServeHTTP` ran; `respond status msg` means an error envelope was
written and `next` never ran; `noAction` means the function returned
without attaching a user, writing a response, or invoking `next`. -/
inductive MWOutcome
  | next (ident : Identity)
  | respond (status : Int) (msg : String)
  | noAction
deriving DecidableEq, Repr

/-- Model of Go `strings.Split(s, " ")` with its single-character
separator: the substrings of `s` between occurrences of the space
character, empty substrings included (for nonempty `s` this is what
`strings.Split` documents; the middleware only splits nonempty headers). -/
def goSplitSpaceAux : List Char → List Char → List String
  | [], acc => [String.mk acc.reverse]
  | c :: cs, acc =>
      if c = ' ' then String.mk acc.reverse :: goSplitSpaceAux cs []
      else goSplitSpaceAux cs (c :: acc)

/-- Go `strings.Split(s, " ")`. -/
def goSplitSpace (s : String) : List String := goSplitSpaceAux s.data []

/-- Go `UserMiddleware.Middleware`, line by line. `r.Header.Get` yields `""`
for an absent header. The middleware holds a `UserStore` (`validate`
here), but after the well-formed-header check (`len(headerParts) == 2 &&
headerParts[0] == "Bearer"`) the function body simply ends: no further
statement exists. -/
def Middleware (validate : String → Except Unit (Option UserRow))
    (authHeader : String) : MWOutcome :=
  if authHeader = "" then
    .next .anonymous
  else
    let headerParts := goSplitSpace authHeader
    if headerParts.length ≠ 2 ∨ headerParts.head? ≠ some "Bearer" then
      .respond 401 "invalid authorization header format"
    else
      .noAction

/-! ## Workout store operations (`internal/store/workout_store.go`) -/

/-- The entry-insert loop of `CreateWorkout`: for each entry, execute the
INSERT on the `workout_entries` table with `RETURNING id`. The insert can be
rejected by the database (constraint violation — the oracle `fails` says
which entries the database rejects, as exercised by the store tests); on
rejection `CreateWorkout` returns the error. Crucially, `for _, entry :=
range workout.Entries` iterates over copies, so the `Scan(&entry.ID)` of
the returned id lands in a discarded copy: the rows receive fresh ids, the
caller's entry structs are never written to. -/
def insertEntries (fails : WorkoutEntry → Bool) (userId workoutId : Int) :
    List WorkoutEntry → Int → List EntryRow → Option (List EntryRow × Int)
  | [], nextId, acc => some (acc, nextId)
  | e :: rest, nextId, acc =>
      if fails e then none
      else insertEntries fails userId workoutId rest (nextId + 1)
        (acc ++ [{ id := nextId
                   userId := userId
                   workoutId := workoutId
                   exerciseName := e.exerciseName
                   sets := e.sets
                   reps := e.reps
                   durationSeconds := e.durationSeconds
                   weight := e.weight
                   notes := e.notes
                   orderIndex := e.orderIndex }])

/-- Go `PostgresWorkoutStore.CreateWorkout`: begin a transaction (with
`defer tx.Rollback()`), insert the workout row (`RETURNING id` scanned into
`workout.ID`), insert each entry, commit. On any entry-insert failure the
deferred rollback leaves the database exactly as it was and the error is
returned; on success the returned workout is the argument with its `ID`
field set — its entries unchanged, because the loop scanned entry ids into
copies. Result: `(returned workout or error, database after the call)`. -/
def CreateWorkout (fails : WorkoutEntry → Bool) (db : WorkoutDB)
    (workout : Workout) : Except Unit Workout × WorkoutDB :=
  let wid := db.nextWorkoutId
  match insertEntries fails workout.userId wid workout.entries
      db.nextEntryId [] with
  | none => (.error (), db)
  | some (rows, nextEntryId) =>
      (.ok { workout with id := wid },
       { workouts := db.workouts ++
           [{ id := wid
              userId := workout.userId
              title := workout.title
              description := workout.description
              durationMinutes := workout.durationMinutes
              caloriesBurned := workout.caloriesBurned }]
         entries := db.entries ++ rows
         nextWorkoutId := wid + 1
         nextEntryId := nextEntryId })

/-- The comparison `ORDER BY order_index ASC` sorts entry rows by. -/
def EntryRow.le (a b : EntryRow) : Prop := a.orderIndex ≤ b.orderIndex

instance : DecidableRel EntryRow.le := fun a b =>
  inferInstanceAs (Decidable (a.orderIndex ≤ b.orderIndex))

instance : IsTotal EntryRow EntryRow.le :=
  ⟨fun a b => Int.le_total a.orderIndex b.orderIndex⟩

instance : IsTrans EntryRow EntryRow.le :=
  ⟨fun _ _ _ hab hbc => le_trans hab hbc⟩

/-- The columns the entry SELECT of `GetWorkoutByID` scans back into a
`WorkoutEntry` (it does not read the `user_id` column). -/
def EntryRow.toWorkoutEntry (e : EntryRow) : WorkoutEntry :=
  { id := e.id
    exerciseName := e.exerciseName
    sets := e.sets
    reps := e.reps
    durationSeconds := e.durationSeconds
    weight := e.weight
    notes := e.notes
    orderIndex := e.orderIndex }

/-- Go `PostgresWorkoutStore.GetWorkoutByID`: `SELECT ... FROM workouts WHERE
id = $1` — `sql.ErrNoRows` becomes `(nil, nil)`, i.e. `none`; then
`SELECT ... FROM workout_entries WHERE workout_id = $1 ORDER BY
order_index ASC`, appending each scanned row to the entry list.
Infrastructure failures aside, this is the pure lookup below. -/
def GetWorkoutByID (db : WorkoutDB) (id : Int) : Option Workout :=
  match db.workouts.find? (fun r => r.id = id) with
  | none => none
  | some r =>
      let rows := (db.entries.filter (fun e => e.workoutId = id)).insertionSort
        EntryRow.le
      some { id := r.id
             userId := r.userId
             title := r.title
             description := r.description
             durationMinutes := r.durationMinutes
             caloriesBurned := r.caloriesBurned
             entries := rows.map EntryRow.toWorkoutEntry }

/-- Modelled from the spec: `PostgresWorkoutStore.GetWorkoutOwner` is called
by the handlers but absent from `src/`. Spec §4.4: "`get_owner(id)` —
single-column lookup used purely for authorization decisions by the handler
layer; returns not-found if no such workout exists." -/
def GetWorkoutOwner (db : WorkoutDB) (id : Int) : Except Unit Int :=
  match db.workouts.find? (fun r => r.id = id) with
  | some r => .ok r.userId
  | none => .error ()

/-- Modelled from the spec: `PostgresWorkoutStore.UpdateWorkout` is called
by the handlers but absent from `src/`. Spec §4.4: update the workout row
by id within a transaction, returning a not-found error (and rolling back)
if zero rows were affected; then update each entry by (entry id, workout
id) pair, entries not matching an existing row being silent no-ops; commit
only if all statements succeeded. -/
def UpdateWorkoutStore (db : WorkoutDB) (w : Workout) :
    Except Unit WorkoutDB :=
  if db.workouts.any (fun r => r.id = w.id) then
    .ok { db with
      workouts := db.workouts.map (fun r =>
        if r.id = w.id then
          { r with
            userId := w.userId
            title := w.title
            description := w.description
            durationMinutes := w.durationMinutes
            caloriesBurned := w.caloriesBurned }
        else r)
      entries := db.entries.map (fun er =>
        match w.entries.find? (fun e => e.id = er.id) with
        | some e =>
            if er.workoutId = w.id then
              { er with
                exerciseName := e.exerciseName
                sets := e.sets
                reps := e.reps
                durationSeconds := e.durationSeconds
                weight := e.weight
                notes := e.notes
                orderIndex := e.orderIndex }
            else er
        | none => er) }
  else .error ()

/-- Modelled from the spec: `PostgresWorkoutStore.DeleteWorkout` is called
by the handlers but absent from `src/`. Spec §4.4: "`delete(id)` — removes
the workout row (entry rows expected to cascade at the schema level)." -/
def DeleteWorkoutStore (db : WorkoutDB) (id : Int) : WorkoutDB :=
  { db with
    workouts := db.workouts.filter (fun r => r.id ≠ id)
    entries := db.entries.filter (fun e => e.workoutId ≠ id) }

/-! ## HTTP handlers

The handlers consume store results through an interface; calls whose
Postgres implementation can also fail for infrastructure reasons are
embedded by passing the call's result in as a parameter (exactly the
`(value, err)` pair the handler scrutinises), while the ownership /
mutation flow of the workout handler is embedded against the database
state directly. -/

/-- What a handler observably does: write a JSON error envelope, write a
success envelope carrying a workout (possibly the `nil` workout pointer),
write a token envelope, write nothing beyond a status, or panic with a
nil-pointer dereference at runtime. -/
inductive HandlerResult
  | errorResp (status : Int) (msg : String)
  | workoutResp (status : Int) (w : Option Workout)
  | tokenResp (status : Int) (tokenPlaintext : String)
  | emptyResp (status : Int)
  | panicked
deriving DecidableEq, Repr

/-- Go `WorkoutHandler.HandleGetWorkoutByID` (final revision): a failed
`utils.ReadIDParam` is answered with 500 "Invalid workout ID"; then
`GetWorkoutByID` is called and its `(workout, err)` pair scrutinised:
`err != nil` is answered with 404 "Workout not found", otherwise the
workout — whatever it is, including `nil` — is written with 200. -/
def HandleGetWorkoutByID (idParam : Except Unit Int)
    (storeResult : Except Unit (Option Workout)) : HandlerResult :=
  match idParam with
  | .error _ => .errorResp 500 "Invalid workout ID"
  | .ok _ =>
      match storeResult with
      | .error _ => .errorResp 404 "Workout not found"
      | .ok workout => .workoutResp 200 workout

/-- The partial-update payload of `HandleUpdateWorkout`: each field is
pointer-typed so that an omitted field is `none`. -/
structure UpdateWorkoutRequest where
  title : Option String
  description : Option String
  durationMinutes : Option Int
  caloriesBurned : Option Int
  entries : Option (List WorkoutEntry)
deriving DecidableEq, Repr

/-- Go `WorkoutHandler.HandleUpdateWorkout` (final revision), in program
order: read the id parameter (error → 400); fetch the workout — the store
only errors for infrastructure reasons, so in this embedding the fetch
yields the row or `none`, and the Go code proceeds holding a nil pointer
in the latter case; decode the body (error → 400); copy each present
payload field onto the fetched workout (a write through a nil pointer
panics); reject an anonymous identity with 401; set `workout.UserID` to
the current user (another nil-pointer write site); fetch the owner
(error → 500); mismatching owner → 403; run the store update
(error → 500); answer 200 with the updated workout. The returned pair is
`(what was written, the database after the request)`. -/
def HandleUpdateWorkout (db : WorkoutDB) (idParam : Except Unit Int)
    (body : Except Unit UpdateWorkoutRequest) (currentUser : Identity) :
    HandlerResult × WorkoutDB :=
  match idParam with
  | .error _ => (.errorResp 400 "Workout ID is required", db)
  | .ok wid =>
    match body with
    | .error _ => (.errorResp 400 "bad request body", db)
    | .ok req =>
      match GetWorkoutByID db wid with
      | none =>
          if req.title.isSome ∨ req.description.isSome ∨
              req.durationMinutes.isSome ∨ req.caloriesBurned.isSome ∨
              req.entries.isSome then
            (.panicked, db)
          else
            match currentUser with
            | .anonymous =>
                (.errorResp 401 "Authentication required to update workout",
                 db)
            | .authenticated _ => (.panicked, db)
      | some w0 =>
          let w1 : Workout :=
            { w0 with
              title := req.title.getD w0.title
              description := req.description.getD w0.description
              durationMinutes := req.durationMinutes.getD w0.durationMinutes
              caloriesBurned := req.caloriesBurned.getD w0.caloriesBurned
              entries := req.entries.getD w0.entries }
          match currentUser with
          | .anonymous =>
              (.errorResp 401 "Authentication required to update workout",
               db)
          | .authenticated uid =>
            let w2 : Workout := { w1 with userId := uid }
            match GetWorkoutOwner db wid with
            | .error _ =>
                (.errorResp 500 "Failed to retrieve workout owner", db)
            | .ok workoutOwner =>
                if workoutOwner ≠ uid then
                  (.errorResp 403
                    "You do not have permission to update this workout", db)
                else
                  match UpdateWorkoutStore db w2 with
                  | .error _ =>
                      (.errorResp 500 "Failed to update workout", db)
                  | .ok db' => (.workoutResp 200 (some w2), db')

/-- Go `WorkoutHandler.HandleDeleteWorkout`, in program order: read the id
parameter (error → 400); existence probe via `GetWorkoutByID`, whose error
branch (404) only fires on infrastructure failure — a missing workout is
`(nil, nil)` and sails through; reject an anonymous identity with 401;
fetch the owner (error → 500, which is what a missing workout produces
here); mismatching owner → 403; a second existence probe (error → 500);
delete; on success the handler writes nothing, which `net/http` turns into
an empty 200. -/
def HandleDeleteWorkout (db : WorkoutDB) (idParam : Except Unit Int)
    (currentUser : Identity) : HandlerResult × WorkoutDB :=
  match idParam with
  | .error _ => (.errorResp 400 "Invalid workout ID", db)
  | .ok wid =>
    match currentUser with
    | .anonymous =>
        (.errorResp 401 "Authentication required to delete workout", db)
    | .authenticated uid =>
      match GetWorkoutOwner db wid with
      | .error _ =>
          (.errorResp 500 "Failed to retrieve workout owner", db)
      | .ok workoutOwner =>
          if workoutOwner ≠ uid then
            (.errorResp 403
              "You do not have permission to delete this workout", db)
          else
            (.emptyResp 200, DeleteWorkoutStore db wid)

/-- The decoded body of `POST /tokens/authentication`
(`api.createTokenRequest`). -/
structure CreateTokenRequest where
  username : String
  password : String
deriving DecidableEq, Repr

/-- Go `TokenHandler.HandleCreateToken`, in program order: decode (error →
400); `GetUserByUsername` (error → 500); then the code immediately calls
`user.PasswordHash.Matches(req.Password)` — when the lookup returned
`(nil, nil)` because no such user exists, `user` is a nil pointer and the
call panics; a compare error or a non-match → 401 "Invalid credentials"
(the second, identical check is dead code reproduced as-is);
`CreateNewToken` (whose result is passed in, error → 500); 201 with the
token plaintext. -/
def HandleCreateToken (decoded : Except Unit CreateTokenRequest)
    (userResult : Except Unit (Option UserRow))
    (tokenResult : Except Unit String) : HandlerResult :=
  match decoded with
  | .error _ => .errorResp 400 "Invalid request payload"
  | .ok req =>
    match userResult with
    | .error _ => .errorResp 500 "Internal Server Error"
    | .ok none => .panicked
    | .ok (some user) =>
      let m := Password.Matches ⟨none, user.passwordHash⟩ req.password
      if m.2.isSome ∨ m.1 = false then
        .errorResp 401 "Invalid credentials"
      else if m.1 = false then
        .errorResp 401 "Invalid credentials"
      else
        match tokenResult with
        | .error _ => .errorResp 500 "Internal Server Error"
        | .ok tok => .tokenResp 201 tok

/-! ## Derived descriptions and sample inputs -/

/-- The `workout_entries` row the entry INSERT of `CreateWorkout` writes
for entry `e` when the database assigns it id `id`. -/
def entryRowOf (userId workoutId : Int) (e : WorkoutEntry) (id : Int) :
    EntryRow :=
  { id := id
    userId := userId
    workoutId := workoutId
    exerciseName := e.exerciseName
    sets := e.sets
    reps := e.reps
    durationSeconds := e.durationSeconds
    weight := e.weight
    notes := e.notes
    orderIndex := e.orderIndex }

/-- The rows the entry-insert loop appends for the entry list `l` when the
database assigns ids from `n` on. -/
def entryRows (userId workoutId : Int) :
    List WorkoutEntry → Int → List EntryRow
  | [], _ => []
  | e :: rest, n =>
      entryRowOf userId workoutId e n ::
        entryRows userId workoutId rest (n + 1)

/-- A sample entry, as a client would supply it (id left at the zero
value). -/
def sampleEntry : WorkoutEntry := ⟨0, "Squat", 3, some 8, none, none, "", 1⟩

/-- A second sample entry with a larger order index. -/
def sampleEntryLater : WorkoutEntry :=
  ⟨0, "Lunge", 3, some 10, none, none, "", 2⟩

/-- A sample workout as supplied to `CreateWorkout` (ids zero). -/
def sampleWorkout : Workout := ⟨0, 7, "Legs", "", 45, 300, [sampleEntry]⟩

/-- A sample workout whose entries arrive in descending order-index
order. -/
def sampleWorkoutUnsorted : Workout :=
  ⟨0, 7, "Legs", "", 45, 300, [sampleEntryLater, sampleEntry]⟩

/-- An empty database whose serial counters start at 1. -/
def emptyDB : WorkoutDB := ⟨[], [], 1, 1⟩

/-- A database holding workout 1 owned by user 2, with no entries. -/
def ownedDB : WorkoutDB := ⟨[⟨1, 2, "t", "d", 30, 100⟩], [], 2, 1⟩

/-- The workout `GetWorkoutByID ownedDB 1` yields. -/
def ownedWorkout : Workout := ⟨1, 2, "t", "d", 30, 100, []⟩

/-- An update request leaving every field absent. -/
def emptyUpdateRequest : UpdateWorkoutRequest := ⟨none, none, none, none, none⟩

/-- A registered user whose stored hash derives from "correct horse". -/
def aliceRow : UserRow :=
  ⟨1, "alice", "alice@example.com", .hashOf "correct horse" 12, "", 0, 0⟩

/-- A user database containing only `aliceRow` and no tokens. -/
def sampleUserDB : UserDB := ⟨[aliceRow], []⟩

/-- A user database where user 1 owns a token with digest 5, scope
"authentication" and expiry 10. -/
def tokenUserDB : UserDB := ⟨[aliceRow], [⟨5, 1, "authentication", 10⟩]⟩

/-! ## Claim theorems -/

/-- C1: the claim says a well-formed `Authorization: Bearer <token>`
header makes the middleware call the token validator and then either
attach the user and continue, reject with an authentication failure, or
reject with a 5xx outcome. The code does none of these: after the
well-formed-header check its body ends, so for every validator the
outcome is `noAction` — the validator is never consulted (the result does
not depend on it), no user is attached, no response is written, and the
next handler never runs. -/
theorem c1_wellformed_bearer_header_never_reaches_validator :
    ∀ validate : String → Except Unit (Option UserRow),
      Middleware validate "Bearer token123" = MWOutcome.noAction :=
  fun _ => rfl

/-- C2: the claim says `Matches` never returns `(true, _)` for a record
whose stored hash is malformed or absent. Evaluating `password.Matches`
on the zero-value record (nil hash, for which
`bcrypt.CompareHashAndPassword` reports a malformed-hash error rather
than the mismatch sentinel) shows the function falling through its error
handling to the final `return true, nil`. -/
theorem c2_matches_returns_true_on_malformed_hash :
    Password.Matches ⟨none, BcryptHash.malformed⟩ "any candidate"
      = (true, none) := rfl

/-- C3: the claim says handlers translate a store none-result into 404
and a store error into 500, never the reverse. Evaluating
`HandleGetWorkoutByID` shows exactly the reverse: a store error is
answered with 404 "Workout not found", and a none-result (workout absent,
nil error) is answered as a 200 success carrying the nil workout. -/
theorem c3_get_workout_handler_inverts_error_mapping :
    HandleGetWorkoutByID (Except.ok 1) (Except.error ())
        = HandlerResult.errorResp 404 "Workout not found" ∧
      HandleGetWorkoutByID (Except.ok 1) (Except.ok none)
        = HandlerResult.workoutResp 200 none :=
  ⟨rfl, rfl⟩

/-- C6: the claim says that after `Set(p)` succeeds the password record
holds only the derived bcrypt hash and not the plaintext. Evaluating
`password.Set` shows the record's `plainText` field holding the plaintext
after the call (`p.plainText = &plainText`). -/
theorem c6_set_retains_plaintext :
    (Password.Set ⟨none, BcryptHash.malformed⟩ "secret123").plainText
      = some "secret123" := rfl

/-- C7: the claim says `CreateWorkout` returns the workout with a
server-assigned identifier on the workout row and on every entry.
Evaluating a successful create on an empty database shows the returned
workout carrying the assigned workout id 1, but its entry still carrying
the caller-supplied id 0, while the inserted `workout_entries` row
received the server-assigned id 1: the loop scanned the returned id into
a discarded copy of the entry. -/
theorem c7_created_entry_ids_not_populated :
    (CreateWorkout (fun _ => false) emptyDB sampleWorkout).1
        = Except.ok { sampleWorkout with id := 1 } ∧
      (CreateWorkout (fun _ => false) emptyDB
        sampleWorkout).2.entries.map EntryRow.id = [1] ∧
      ({ sampleWorkout with id := 1 } : Workout).entries.map WorkoutEntry.id
        = [0] :=
  ⟨rfl, rfl, rfl⟩

/-- C9: the claim says a wrong-password attempt on an existing username
and an attempt on a nonexistent username are indistinguishable, both
answered 401 "Invalid credentials". Evaluating `HandleCreateToken` over
`GetUserByUsername` shows the existing-user case answered 401 while the
nonexistent-user case dereferences the nil user returned by the store's
`(nil, nil)` no-match convention and panics — two distinguishable
outcomes. -/
theorem c9_login_failures_distinguishable :
    HandleCreateToken (Except.ok ⟨"alice", "wrong"⟩)
        (Except.ok (GetUserByUsername sampleUserDB "alice"))
        (Except.error ())
        = HandlerResult.errorResp 401 "Invalid credentials" ∧
      HandleCreateToken (Except.ok ⟨"bob", "wrong"⟩)
        (Except.ok (GetUserByUsername sampleUserDB "bob"))
        (Except.error ())
        = HandlerResult.panicked ∧
      HandlerResult.panicked
        ≠ HandlerResult.errorResp 401 "Invalid credentials" :=
  ⟨rfl, rfl, by decide⟩

/-- C4: for PATCH and DELETE on an existing workout, an anonymous
identity is answered 401 (before the ownership lookup can matter), an
authenticated identity differing from the recorded owner is answered 403
— distinct from 404 — and in all four rejected cases the database after
the request equals the database before it: the workout and its entries
are unchanged. -/
theorem c4_mutations_reject_anonymous_401_and_non_owner_403_unchanged
    (db : WorkoutDB) (wid : Int) (req : UpdateWorkoutRequest)
    (uid owner : Int) (w0 : Workout)
    (hw : GetWorkoutByID db wid = some w0)
    (howner : GetWorkoutOwner db wid = Except.ok owner)
    (hne : owner ≠ uid) :
    HandleUpdateWorkout db (Except.ok wid) (Except.ok req) Identity.anonymous
        = (HandlerResult.errorResp 401
            "Authentication required to update workout", db) ∧
      HandleUpdateWorkout db (Except.ok wid) (Except.ok req)
          (Identity.authenticated uid)
        = (HandlerResult.errorResp 403
            "You do not have permission to update this workout", db) ∧
      HandleDeleteWorkout db (Except.ok wid) Identity.anonymous
        = (HandlerResult.errorResp 401
            "Authentication required to delete workout", db) ∧
      HandleDeleteWorkout db (Except.ok wid) (Identity.authenticated uid)
        = (HandlerResult.errorResp 403
            "You do not have permission to delete this workout", db) := by
  refine ⟨?_, ?_, ?_, ?_⟩ <;>
    simp [HandleUpdateWorkout, HandleDeleteWorkout, hw, howner, hne]

/-- Witness for C4: on the concrete database holding workout 1 owned by
user 2, the hypotheses hold and user 1's PATCH is answered 403 with the
database unchanged. -/
theorem c4_witness :
    GetWorkoutByID ownedDB 1 = some ownedWorkout ∧
      (2 : Int) ≠ 1 ∧
      HandleUpdateWorkout ownedDB (Except.ok 1) (Except.ok emptyUpdateRequest)
          (Identity.authenticated 1)
        = (HandlerResult.errorResp 403
            "You do not have permission to update this workout", ownedDB) :=
  ⟨rfl, by decide,
    (c4_mutations_reject_anonymous_401_and_non_owner_403_unchanged
      ownedDB 1 emptyUpdateRequest 1 2 ownedWorkout rfl rfl
      (by decide)).2.1⟩

/-- If some entry in the list is rejected by the database, the
entry-insert loop reports the failure. -/
theorem insertEntries_eq_none (fails : WorkoutEntry → Bool)
    (userId workoutId : Int) :
    ∀ (l : List WorkoutEntry) (n : Int) (acc : List EntryRow),
      (∃ e ∈ l, fails e = true) →
      insertEntries fails userId workoutId l n acc = none := by
  intro l
  induction l with
  | nil => intro n acc h; simp at h
  | cons e rest ih =>
      intro n acc h
      by_cases hf : fails e = true
      · simp [insertEntries, hf]
      · have : ∃ x ∈ rest, fails x = true := by
          rcases h with ⟨x, hx, hfx⟩
          rcases List.mem_cons.1 hx with rfl | hxr
          · exact absurd hfx hf
          · exact ⟨x, hxr, hfx⟩
        simp [insertEntries, hf, ih _ _ this]

/-- C5: if the database rejects any entry insert, `CreateWorkout` returns
an error, the deferred rollback leaves the database exactly as it was,
and `GetWorkoutByID` on the would-be workout id (the id the insert would
have been assigned) returns none — no partial workout is observable. -/
theorem c5_create_workout_atomic_rollback (fails : WorkoutEntry → Bool)
    (db : WorkoutDB) (w : Workout)
    (hfresh : ∀ r ∈ db.workouts, r.id ≠ db.nextWorkoutId)
    (hfail : ∃ e ∈ w.entries, fails e = true) :
    (CreateWorkout fails db w).1 = Except.error () ∧
      (CreateWorkout fails db w).2 = db ∧
      GetWorkoutByID (CreateWorkout fails db w).2 db.nextWorkoutId
        = none := by
  have hnone := insertEntries_eq_none fails w.userId db.nextWorkoutId
    w.entries db.nextEntryId [] hfail
  have hfind : db.workouts.find? (fun r => r.id = db.nextWorkoutId)
      = none := by
    rw [List.find?_eq_none]
    intro r hr
    simpa using hfresh r hr
  refine ⟨?_, ?_, ?_⟩ <;> simp [CreateWorkout, hnone, GetWorkoutByID, hfind]

/-- Witness for C5: a database whose lone workout has id 1 and whose next
workout id is 2, with the database rejecting every entry of the sample
workout, yields the error, the untouched database, and a none lookup. -/
theorem c5_witness :
    (∀ r ∈ ownedDB.workouts, r.id ≠ ownedDB.nextWorkoutId) ∧
      (∃ e ∈ sampleWorkout.entries, (fun _ => true) e = true) ∧
      (CreateWorkout (fun _ => true) ownedDB sampleWorkout).1
          = Except.error () ∧
      (CreateWorkout (fun _ => true) ownedDB sampleWorkout).2 = ownedDB ∧
      GetWorkoutByID (CreateWorkout (fun _ => true) ownedDB sampleWorkout).2
          ownedDB.nextWorkoutId = none :=
  ⟨by decide, by decide,
    c5_create_workout_atomic_rollback (fun _ => true) ownedDB sampleWorkout
      (by decide) (by decide)⟩

/-- The first row of a filtered-and-mapped list exists iff some element
produces a row. -/
theorem head?_filterMap_isSome {α β : Type} (f : α → Option β) :
    ∀ l : List α,
      (∃ b, (l.filterMap f).head? = some b) ↔ ∃ a ∈ l, (f a).isSome := by
  intro l
  induction l with
  | nil => simp
  | cons a rest ih =>
      cases hfa : f a with
      | none => simpa [List.filterMap_cons, hfa] using ih
      | some b => simp [List.filterMap_cons, hfa]

/-- C8: `GetUserToken` yields a user iff some stored token row's hash
equals the SHA-256 digest of the presented plaintext, its scope equals
the expected scope, and its expiry is strictly later than the lookup
time (assuming the tokens table's foreign key to users is intact, which
the schema enforces); consequently, when every row carrying that digest
and scope has already expired — in particular a token issued with ttl=0,
whose expiry is its issuance instant — the lookup returns none (the
`(nil, nil)` no-match convention), not an error. -/
theorem c8_get_user_token_validates_iff (sha256 : String → Nat)
    (db : UserDB) (now : Int) (scope tok : String)
    (hfk : ∀ t ∈ db.tokens, ∃ u ∈ db.users, u.id = t.userId) :
    ((∃ u, GetUserToken sha256 db now scope tok = some u) ↔
        ∃ t ∈ db.tokens,
          t.hash = sha256 tok ∧ t.scope = scope ∧ now < t.expiry) ∧
      ((∀ t ∈ db.tokens,
          t.hash = sha256 tok → t.scope = scope → t.expiry ≤ now) →
        GetUserToken sha256 db now scope tok = none) := by
  have hiff : (∃ u, GetUserToken sha256 db now scope tok = some u) ↔
      ∃ t ∈ db.tokens,
        t.hash = sha256 tok ∧ t.scope = scope ∧ now < t.expiry := by
    rw [GetUserToken]
    rw [head?_filterMap_isSome]
    constructor
    · rintro ⟨t, ht, hft⟩
      refine ⟨t, ht, ?_⟩
      by_cases hc : t.hash = sha256 tok ∧ t.scope = scope ∧ now < t.expiry
      · exact hc
      · simp [hc] at hft
    · rintro ⟨t, ht, hc⟩
      refine ⟨t, ht, ?_⟩
      rw [if_pos hc, Option.isSome_iff_exists]
      obtain ⟨u, hu, hui⟩ := hfk t ht
      have : db.users.find? (fun u => u.id = t.userId) ≠ none := by
        rw [Ne, List.find?_eq_none]
        push_neg
        exact ⟨u, hu, by simp [hui]⟩
      rcases Option.ne_none_iff_exists'.1 this with ⟨u', hu'⟩
      exact ⟨u', hu'⟩
  refine ⟨hiff, fun hall => ?_⟩
  rcases h : GetUserToken sha256 db now scope tok with _ | u
  · rfl
  · exfalso
    rcases hiff.1 ⟨u, h⟩ with ⟨t, ht, h1, h2, h3⟩
    exact absurd (hall t ht h1 h2) (not_le.2 h3)

/-- Witness for C8: with digest function `String.length`, a database
holding user 1 and a token row with digest 5, scope "authentication" and
expiry 10, a presented five-character token validates at time 0 and the
iff instance holds. -/
theorem c8_witness :
    (∀ t ∈ tokenUserDB.tokens,
        ∃ u ∈ tokenUserDB.users, u.id = t.userId) ∧
      ((∃ u, GetUserToken String.length tokenUserDB 0 "authentication"
            "abcde" = some u) ↔
        ∃ t ∈ tokenUserDB.tokens,
          t.hash = String.length "abcde" ∧ t.scope = "authentication" ∧
            (0 : Int) < t.expiry) :=
  ⟨by decide,
    (c8_get_user_token_validates_iff String.length tokenUserDB 0
      "authentication" "abcde" (by decide)).1⟩

/-- When no entry is rejected, the entry-insert loop appends exactly the
rows `entryRows` describes and advances the serial counter by the number
of entries. -/
theorem insertEntries_eq_some (fails : WorkoutEntry → Bool)
    (userId workoutId : Int) :
    ∀ (l : List WorkoutEntry) (n : Int) (acc : List EntryRow),
      (∀ e ∈ l, fails e = false) →
      insertEntries fails userId workoutId l n acc
        = some (acc ++ entryRows userId workoutId l n, n + l.length) := by
  intro l
  induction l with
  | nil => intro n acc _; simp [insertEntries, entryRows]
  | cons e rest ih =>
      intro n acc h
      have hf : fails e = false := h e (List.mem_cons_self e rest)
      have hrest : ∀ x ∈ rest, fails x = false :=
        fun x hx => h x (List.mem_cons_of_mem e hx)
      rw [insertEntries]
      simp only [hf, Bool.false_eq_true, if_false]
      rw [ih (n + 1) _ hrest]
      simp [entryRows, entryRowOf, List.append_assoc]
      omega

/-- Every row the entry-insert loop writes carries the created workout's
id in its `workout_id` column. -/
theorem entryRows_workoutId (userId workoutId : Int) :
    ∀ (l : List WorkoutEntry) (n : Int),
      ∀ r ∈ entryRows userId workoutId l n, r.workoutId = workoutId := by
  intro l
  induction l with
  | nil => intro n r hr; simp [entryRows] at hr
  | cons e rest ih =>
      intro n r hr
      simp only [entryRows] at hr
      rcases List.mem_cons.1 hr with rfl | h
      · rfl
      · exact ih (n + 1) r h

/-- The inserted rows carry exactly the order indices of the supplied
entries, in the supplied order. -/
theorem entryRows_map_orderIndex (userId workoutId : Int) :
    ∀ (l : List WorkoutEntry) (n : Int),
      (entryRows userId workoutId l n).map EntryRow.orderIndex
        = l.map WorkoutEntry.orderIndex := by
  intro l
  induction l with
  | nil => intro n; rfl
  | cons e rest ih => intro n; simp [entryRows, entryRowOf, ih]

/-- C10: on a fresh workout id, a successful `CreateWorkout` followed by
`GetWorkoutByID` on the returned id yields the created workout, its
entries pairwise ascending in the order-index field, and their order
indices a permutation of the supplied ones — whatever order the entries
were supplied and inserted in. -/
theorem c10_create_then_get_entries_sorted (fails : WorkoutEntry → Bool)
    (db : WorkoutDB) (w : Workout)
    (hfreshW : ∀ r ∈ db.workouts, r.id ≠ db.nextWorkoutId)
    (hfreshE : ∀ e ∈ db.entries, e.workoutId ≠ db.nextWorkoutId)
    (hok : ∀ e ∈ w.entries, fails e = false)
    (_hne : w.entries ≠ []) :
    ∃ created got,
      (CreateWorkout fails db w).1 = Except.ok created ∧
        GetWorkoutByID (CreateWorkout fails db w).2 created.id = some got ∧
        got.entries.Pairwise (fun a b => a.orderIndex ≤ b.orderIndex) ∧
        List.Perm (got.entries.map WorkoutEntry.orderIndex)
          (w.entries.map WorkoutEntry.orderIndex) := by
  have hins := insertEntries_eq_some fails w.userId db.nextWorkoutId
    w.entries db.nextEntryId [] hok
  rw [List.nil_append] at hins
  have hfind : db.workouts.find? (fun r => r.id = db.nextWorkoutId)
      = none := by
    rw [List.find?_eq_none]
    intro r hr
    simpa using hfreshW r hr
  have hfilterOld :
      db.entries.filter (fun e => e.workoutId = db.nextWorkoutId) = [] := by
    rw [List.filter_eq_nil_iff]
    intro e he
    simpa using hfreshE e he
  have hfilterNew :
      (entryRows w.userId db.nextWorkoutId w.entries
          db.nextEntryId).filter
          (fun e => e.workoutId = db.nextWorkoutId)
        = entryRows w.userId db.nextWorkoutId w.entries db.nextEntryId := by
    rw [List.filter_eq_self]
    intro r hr
    simpa using entryRows_workoutId w.userId db.nextWorkoutId
      w.entries db.nextEntryId r hr
  have hsorted := List.sorted_insertionSort EntryRow.le
    (entryRows w.userId db.nextWorkoutId w.entries db.nextEntryId)
  have hperm := List.perm_insertionSort EntryRow.le
    (entryRows w.userId db.nextWorkoutId w.entries db.nextEntryId)
  refine ⟨{ w with id := db.nextWorkoutId },
    { id := db.nextWorkoutId
      userId := w.userId
      title := w.title
      description := w.description
      durationMinutes := w.durationMinutes
      caloriesBurned := w.caloriesBurned
      entries := ((entryRows w.userId db.nextWorkoutId w.entries
        db.nextEntryId).insertionSort EntryRow.le).map
        EntryRow.toWorkoutEntry },
    ?_, ?_, ?_, ?_⟩
  · simp [CreateWorkout, hins]
  · simp [CreateWorkout, hins, GetWorkoutByID, List.find?_append, hfind,
      List.filter_append, hfilterOld, hfilterNew]
  · exact List.Pairwise.map EntryRow.toWorkoutEntry
      (fun a b hab => hab) hsorted
  · rw [List.map_map]
    have h1 : (WorkoutEntry.orderIndex ∘ EntryRow.toWorkoutEntry)
        = EntryRow.orderIndex := rfl
    rw [h1]
    have h2 := (hperm.map EntryRow.orderIndex)
    rw [entryRows_map_orderIndex w.userId db.nextWorkoutId
      w.entries db.nextEntryId] at h2
    exact h2

/-- Witness for C10: creating the sample workout whose two entries arrive
with order indices 2 then 1 in the empty database, then fetching the
returned id, yields entries pairwise ascending whose order indices are a
permutation of the supplied ones. -/
theorem c10_witness :
    ((∀ r ∈ emptyDB.workouts, r.id ≠ emptyDB.nextWorkoutId) ∧
        sampleWorkoutUnsorted.entries ≠ []) ∧
      ∃ created got,
        (CreateWorkout (fun _ => false) emptyDB sampleWorkoutUnsorted).1
            = Except.ok created ∧
          GetWorkoutByID
              (CreateWorkout (fun _ => false) emptyDB
                sampleWorkoutUnsorted).2 created.id = some got ∧
          got.entries.Pairwise (fun a b => a.orderIndex ≤ b.orderIndex) ∧
          List.Perm (got.entries.map WorkoutEntry.orderIndex)
            (sampleWorkoutUnsorted.entries.map WorkoutEntry.orderIndex) :=
  ⟨⟨by decide, by decide⟩,
    c10_create_then_get_entries_sorted (fun _ => false) emptyDB
      sampleWorkoutUnsorted (by decide) (by decide) (by decide)
      (by decide)⟩

end GoApi
